import Mathlib

/-!
Verification of the VueComponents repository's two state machines:
the field edit-state controller (Input / Select / Textarea / Multiselect)
and the option-source controller of the Multiselect component.

Values that may be JavaScript null are modelled as Option; a JS string is
truthy iff nonempty; a JS array is always truthy (so an array-valued prop is
truthy iff it is non-null, i.e. Option.isSome).
-/

namespace VueSpec

/-- One selectable option record, with identity key id and display label name
(optionLabel is fixed to name in Multiselect.vue). -/
structure OptionRec where
  id : Nat
  name : String
deriving DecidableEq, Repr

/-! ## Field edit-state controller

Shared verbatim by Input.vue, Select.vue, Textarea.vue and Multiselect.vue:

  toggleEdit()  { this.isEditing = !this.isEditing; }
  dismissEdit() { this.tmpVal = this.modelValue; this.toggleEdit(); }
  acceptEdit()  { this.$emit(updateModelValue, this.tmpVal); this.toggleEdit(); }

State is isEditing plus the draft tmpVal (initialised to null in data()).
The committed value modelValue is owned by the parent; it is passed to each
step as the value the component currently sees. -/

inductive EditMode
  | Display
  | Editing
deriving DecidableEq, Repr

inductive EditOp
  | toggle
  | accept
  | dismiss
deriving DecidableEq, Repr

/-- Notification emitted to the owner: the update:modelValue (commit) event
carrying the draft value. -/
inductive EditEvent (V : Type)
  | commit (v : Option V)
deriving DecidableEq

structure EditState (V : Type) where
  isEditing : Bool
  tmpVal : Option V
deriving DecidableEq, Repr

/-- data() of the components: isEditing: false, tmpVal: null. -/
def initEdit (V : Type) : EditState V :=
  { isEditing := false, tmpVal := none }

/-- this.isEditing = !this.isEditing -/
def toggleEdit {V : Type} (s : EditState V) : EditState V :=
  { s with isEditing := !s.isEditing }

/-- The rendered mode: the read-only display when isEditing is false, the
live edit widget when it is true. -/
def mode {V : Type} (s : EditState V) : EditMode :=
  if s.isEditing then EditMode.Editing else EditMode.Display

/-- One call of toggleEdit / acceptEdit / dismissEdit, given the committed
value mv the component currently sees; returns the new local state and the
list of emitted events. -/
def stepEdit {V : Type} (op : EditOp) (mv : Option V) (s : EditState V) :
    EditState V × List (EditEvent V) :=
  match op with
  | EditOp.toggle => (toggleEdit s, [])
  | EditOp.dismiss => (toggleEdit { s with tmpVal := mv }, [])
  | EditOp.accept => (toggleEdit s, [EditEvent.commit s.tmpVal])

/-- A sequence of calls, each with the committed value seen at that moment. -/
def runEdit {V : Type} : List (EditOp × Option V) → EditState V →
    EditState V × List (EditEvent V)
  | [], s => (s, [])
  | (op, mv) :: rest, s =>
    let r := stepEdit op mv s
    let r' := runEdit rest r.1
    (r'.1, r.2 ++ r'.2)

end VueSpec

namespace VueSpec

/-! ## Input.vue / Textarea.vue component model (modelValue watcher with once)

Input.vue and Textarea.vue declare the modelValue watcher with once: true and
without immediate, so the handler runs on the first external modelValue change
only and the watcher is then removed.  While read-only the handler copies the
new committed value into tmpVal; otherwise it only dispatches a DOM input
event (no component state change). -/

structure InputComp where
  isEditing : Bool
  tmpVal : Option String
  modelValue : Option String
  watcherArmed : Bool
  readOnly : Bool
deriving DecidableEq, Repr

/-- Component creation: data() gives isEditing: false, tmpVal: null; the
once-watcher is armed and has not yet run (it is not immediate). -/
def initInput (readOnly : Bool) (mv : Option String) : InputComp :=
  { isEditing := false, tmpVal := none, modelValue := mv,
    watcherArmed := true, readOnly := readOnly }

/-- An external update of the committed value, running the once-watcher if it
is still armed. -/
def inputSetModel (s : InputComp) (v : Option String) : InputComp :=
  let s' := { s with modelValue := v }
  if s'.watcherArmed then
    if s'.readOnly then
      { s' with tmpVal := s'.modelValue, watcherArmed := false }
    else
      { s' with watcherArmed := false }
  else s'

/-- toggleEdit of Input.vue on the component state. -/
def inputToggleEdit (s : InputComp) : InputComp :=
  { s with isEditing := !s.isEditing }

/-! ## Select.vue / Multiselect.vue modelValue watcher (persistent)

Select.vue and Multiselect.vue declare the watcher with immediate: true and
without once, so the handler runs on every external modelValue change; while
read-only it copies the new value into tmpVal. -/

structure SelectComp where
  isEditing : Bool
  tmpVal : Option String
  modelValue : Option String
  readOnly : Bool
deriving DecidableEq, Repr

/-- An external update of the committed value for Select / Multiselect. -/
def selectSetModel (s : SelectComp) (v : Option String) : SelectComp :=
  let s' := { s with modelValue := v }
  if s'.readOnly then { s' with tmpVal := v } else s'

/-! ## Multiselect option-source controller

The mutable option-source state of Multiselect.vue: options, isLoading and
the draft tmpVal; the committed value modelValue (the getter value returns
it) is carried here as the value the component currently sees, none being a
null/undefined prop.  A fetch either succeeds with a list of option records
or throws. -/

structure MsState where
  options : List OptionRec
  isLoading : Bool
  tmpVal : Option (List OptionRec)
  modelValue : Option (List OptionRec)
deriving DecidableEq, Repr

inductive FetchOutcome
  | ok (result : List OptionRec)
  | err
deriving DecidableEq, Repr

/-- A report surfaced through the Toaster collaborator. -/
inductive Report
  | loadFailure
deriving DecidableEq, Repr

/-- The de-duplication written in the filterValue watcher:

  combined.filter((obj, index, self) =>
      index === self.findIndex((item) => item.id === obj.id))

an element is kept iff its index equals the index of the first element with
the same id. -/
def jsDedupe (self : List OptionRec) : List OptionRec :=
  (self.enum.filter
    (fun p => List.findIdx (fun item => item.id == p.2.id) self == p.1)).map Prod.snd

/-- De-duplication as the spec words it: keep the first occurrence per
identity key, scanning left to right with the set of already-seen ids.
Modelled from the spec text, to be compared with jsDedupe. -/
def dedupeSeen (seen : List Nat) : List OptionRec → List OptionRec
  | [] => []
  | x :: xs =>
    if x.id ∈ seen then dedupeSeen seen xs
    else x :: dedupeSeen (x.id :: seen) xs

/-- Spec-side de-duplication keeping first occurrences by id. -/
def specDedupe (l : List OptionRec) : List OptionRec :=
  dedupeSeen [] l

/-- The async filterValue watcher of Multiselect.vue, run to completion with
outcome fetch for the apiCall it may issue.  JS string truthiness makes the
oldV-truthy test oldV ≠ "".  Returns the new state, the reports raised and
the list of search texts fetched (empty or a singleton: at most one apiCall
per invocation, none on the reset branch). -/
def filterWatch (s : MsState) (oldV newV : String) (fetch : FetchOutcome) :
    MsState × List Report × List String :=
  if oldV ≠ "" ∧ oldV.length ≥ 2 ∧ newV.length < 2 then
    ({ s with options := s.modelValue.getD [] }, [], [])
  else if newV ≠ "" ∧ newV.length ≥ 2 then
    match fetch with
    | FetchOutcome.ok fetched =>
      match s.modelValue with
      | some sel =>
        ({ s with options := jsDedupe (fetched ++ sel), isLoading := false },
          [], [newV])
      | none =>
        ({ s with options := fetched, isLoading := false }, [], [newV])
    | FetchOutcome.err =>
      ({ s with isLoading := false }, [Report.loadFailure], [newV])
  else (s, [], [])

/-- The props of Multiselect.vue relevant to option sourcing; a missing url
or data prop is none, and a url is JS-truthy iff nonempty. -/
structure MsProps where
  url : Option String
  data : Option (List OptionRec)
  onDemandSearch : Bool
  readOnly : Bool
deriving DecidableEq, Repr

/-- JS truthiness of an optional string prop. -/
def strTruthy : Option String → Bool
  | none => false
  | some s => !(s == "")

/-- data() of Multiselect.vue: options: [],
isLoading: !this.$props.data && !this.$props.onDemandSearch (a present data
array is truthy even when empty), tmpVal: null. -/
def initMs (p : MsProps) (mv : Option (List OptionRec)) : MsState :=
  { options := [], isLoading := p.data.isNone && !p.onDemandSearch,
    tmpVal := none, modelValue := mv }

/-- The mounted() hook of Multiselect.vue, run to completion with outcome
fetch for the apiCall it may issue.  Returns the new state, the reports
raised and the list of urls fetched. -/
def mountedMs (p : MsProps) (s : MsState) (fetch : FetchOutcome) :
    MsState × List Report × List String :=
  let s0 := if p.readOnly then { s with tmpVal := s.modelValue } else s
  if p.onDemandSearch then
    ({ s0 with options := s0.modelValue.getD [], isLoading := false }, [], [])
  else if p.data.isSome then
    ({ s0 with options := p.data.getD [], isLoading := false }, [], [])
  else if strTruthy p.url then
    match fetch with
    | FetchOutcome.ok r =>
      ({ s0 with options := r, isLoading := false }, [], [p.url.getD ""])
    | FetchOutcome.err =>
      ({ s0 with isLoading := false }, [Report.loadFailure], [p.url.getD ""])
  else (s0, [], [])

/-- The update:modelValue event of Multiselect.vue, whose payload is an
option-record array. -/
inductive MsEvent
  | updateModelValue (v : List OptionRec)
deriving DecidableEq, Repr

/-- removeAll() of Multiselect.vue:

  if (this.readOnly) { this.tmpVal = []; return; }
  this.$emit(updateModelValue, []);
-/
def removeAll (readOnly : Bool) (s : MsState) : MsState × List MsEvent :=
  if readOnly then ({ s with tmpVal := some [] }, [])
  else (s, [MsEvent.updateModelValue []])

/-! ## OnDemandSearch interleaving machine

To examine out-of-order fetch completion, the filterValue watcher is split
into discrete events: a filter change (which may issue a request) and the
later resolution or rejection of an outstanding request.  The code awaits
each apiCall with no staleness check, so the continuation after the await
runs whenever that request completes, even if a newer request completed
first.  Requests are numbered; pending holds the outstanding (id, search)
pairs. -/

structure SearchState where
  options : List OptionRec
  isLoading : Bool
  filterValue : String
  modelValue : Option (List OptionRec)
  nextReq : Nat
  pending : List (Nat × String)
deriving DecidableEq, Repr

inductive SearchEv
  | setFilter (v : String)
  | resolve (reqId : Nat) (result : List OptionRec)
  | reject (reqId : Nat)
deriving DecidableEq, Repr

/-- Mount state of the OnDemandSearch Multiselect: options seeded from the
selection, no outstanding request, empty filter. -/
def initSearch (mv : Option (List OptionRec)) : SearchState :=
  { options := (mv.getD []), isLoading := false, filterValue := "",
    modelValue := mv, nextReq := 0, pending := [] }

/-- One event of the interleaved execution.  A setFilter runs the watcher up
to its await, issuing a request on the search branch; a resolve or reject of
an outstanding request runs the rest of that invocation (the options
assignment or the catch, then the finally). -/
def searchStep (s : SearchState) (e : SearchEv) : SearchState × List Report :=
  match e with
  | SearchEv.setFilter v =>
    let oldV := s.filterValue
    let s' := { s with filterValue := v }
    if oldV ≠ "" ∧ oldV.length ≥ 2 ∧ v.length < 2 then
      ({ s' with options := s'.modelValue.getD [] }, [])
    else if v ≠ "" ∧ v.length ≥ 2 then
      ({ s' with isLoading := true, nextReq := s'.nextReq + 1,
                 pending := s'.pending ++ [(s'.nextReq, v)] }, [])
    else (s', [])
  | SearchEv.resolve reqId result =>
    if s.pending.any (fun q => q.1 == reqId) then
      let s' := { s with pending := s.pending.filter (fun q => q.1 != reqId) }
      match s'.modelValue with
      | some sel =>
        ({ s' with options := jsDedupe (result ++ sel), isLoading := false }, [])
      | none =>
        ({ s' with options := result, isLoading := false }, [])
    else (s, [])
  | SearchEv.reject reqId =>
    if s.pending.any (fun q => q.1 == reqId) then
      ({ s with pending := s.pending.filter (fun q => q.1 != reqId),
                isLoading := false }, [Report.loadFailure])
    else (s, [])

/-- Run a list of interleaving events. -/
def searchRun : SearchState → List SearchEv → SearchState × List Report
  | s, [] => (s, [])
  | s, e :: es =>
    let r := searchStep s e
    let r' := searchRun r.1 es
    (r'.1, r.2 ++ r'.2)

/-! ## Helper lemmas about the de-duplication -/

theorem dedupeSeen_congr (l : List OptionRec) :
    ∀ s₁ s₂ : List Nat, (∀ a, a ∈ s₁ ↔ a ∈ s₂) →
      dedupeSeen s₁ l = dedupeSeen s₂ l := by
  induction l with
  | nil => intro s₁ s₂ _; rfl
  | cons x xs ih =>
    intro s₁ s₂ h
    by_cases hx : x.id ∈ s₁
    · rw [dedupeSeen, dedupeSeen, if_pos hx, if_pos ((h x.id).mp hx)]
      exact ih s₁ s₂ h
    · have hx₂ : x.id ∉ s₂ := fun hc => hx ((h x.id).mpr hc)
      rw [dedupeSeen, dedupeSeen, if_neg hx, if_neg hx₂]
      refine congrArg (x :: ·) (ih _ _ ?_)
      intro a
      simp only [List.mem_cons, h a]

theorem findIdx_append_of_eq (p : OptionRec → Bool) (pre : List OptionRec)
    (x : OptionRec) (xs : List OptionRec) (hx : p x = true)
    (hpre : ∀ y ∈ pre, p y = false) :
    List.findIdx p (pre ++ x :: xs) = pre.length := by
  induction pre with
  | nil => simp [List.findIdx_cons, hx]
  | cons a as ih =>
    have ha : p a = false := hpre a (List.mem_cons_self a as)
    have := ih (fun y hy => hpre y (List.mem_cons_of_mem a hy))
    simp only [List.cons_append, List.findIdx_cons, ha, cond_false, this,
      List.length_cons]

theorem findIdx_lt_of_mem (p : OptionRec → Bool) (pre rest : List OptionRec)
    (h : ∃ y ∈ pre, p y = true) :
    List.findIdx p (pre ++ rest) < pre.length := by
  induction pre with
  | nil => simp at h
  | cons a as ih =>
    cases hpa : p a with
    | true => simp [List.findIdx_cons, hpa]
    | false =>
      obtain ⟨y, hy, hpy⟩ := h
      rcases List.mem_cons.mp hy with rfl | hy'
      · rw [hpa] at hpy; exact absurd hpy (by simp)
      · have hlt := ih ⟨y, hy', hpy⟩
        simp only [List.cons_append, List.findIdx_cons, hpa, cond_false,
          List.length_cons]
        omega

theorem jsDedupe_go (l : List OptionRec) :
    ∀ pre : List OptionRec,
      ((List.enumFrom pre.length l).filter
        (fun p =>
          List.findIdx (fun item => item.id == p.2.id) (pre ++ l) == p.1)).map
        Prod.snd
      = dedupeSeen (pre.map (fun o => o.id)) l := by
  induction l with
  | nil => intro pre; simp [dedupeSeen]
  | cons x xs ih =>
    intro pre
    have hassoc : pre ++ x :: xs = (pre ++ [x]) ++ xs := by
      simp
    by_cases hx : x.id ∈ pre.map (fun o => o.id)
    · obtain ⟨y, hy, hyid⟩ := List.mem_map.mp hx
      have hlt : List.findIdx (fun item => item.id == x.id) (pre ++ x :: xs)
          < pre.length :=
        findIdx_lt_of_mem _ pre (x :: xs) ⟨y, hy, by simp [hyid]⟩
      have hcond :
          (List.findIdx (fun item => item.id == x.id) (pre ++ x :: xs)
            == pre.length) = false := by
        simp only [beq_eq_false_iff_ne, ne_eq]
        omega
      have htail := ih (pre ++ [x])
      rw [hassoc] at *
      rw [List.enumFrom]
      rw [List.filter_cons]
      simp only [hcond, if_neg Bool.false_ne_true]
      have hlen : pre.length + 1 = (pre ++ [x]).length := by simp
      rw [hlen]
      rw [htail]
      rw [dedupeSeen, if_pos hx]
      refine dedupeSeen_congr xs _ _ ?_
      intro a
      simp only [List.map_append, List.map_cons, List.map_nil, List.mem_append,
        List.mem_cons, List.not_mem_nil, or_false]
      constructor
      · rintro (h | rfl)
        · exact h
        · exact hx
      · intro h; exact Or.inl h
    · have hpre : ∀ y ∈ pre, (fun item => item.id == x.id) y = false := by
        intro y hy
        simp only [beq_eq_false_iff_ne, ne_eq]
        intro hc
        exact hx (List.mem_map.mpr ⟨y, hy, hc⟩)
      have heq : List.findIdx (fun item => item.id == x.id) (pre ++ x :: xs)
          = pre.length :=
        findIdx_append_of_eq _ pre x xs (by simp) hpre
      have hcond :
          (List.findIdx (fun item => item.id == x.id) (pre ++ x :: xs)
            == pre.length) = true := by
        simp [heq]
      have htail := ih (pre ++ [x])
      rw [hassoc] at *
      rw [List.enumFrom]
      rw [List.filter_cons]
      simp only [hcond, if_pos]
      rw [List.map_cons]
      have hlen : pre.length + 1 = (pre ++ [x]).length := by simp
      rw [hlen]
      rw [htail]
      rw [dedupeSeen, if_neg hx]
      refine congrArg (x :: ·) (dedupeSeen_congr xs _ _ ?_)
      intro a
      simp only [List.map_append, List.map_cons, List.map_nil, List.mem_append,
        List.mem_cons, List.not_mem_nil, or_false]
      tauto

/-- The filter/findIndex de-duplication written in the code computes exactly
the spec's first-occurrence-per-id de-duplication. -/
theorem jsDedupe_eq_specDedupe (l : List OptionRec) :
    jsDedupe l = specDedupe l := by
  have h := jsDedupe_go l []
  simpa [jsDedupe, specDedupe, List.enum_eq_enumFrom] using h

theorem dedupeSeen_countP_of_seen (l : List OptionRec) :
    ∀ (seen : List Nat) (k : Nat), k ∈ seen →
      (dedupeSeen seen l).countP (fun y => y.id == k) = 0 := by
  induction l with
  | nil => intro seen k _; rfl
  | cons x xs ih =>
    intro seen k hk
    by_cases hx : x.id ∈ seen
    · rw [dedupeSeen, if_pos hx]; exact ih seen k hk
    · rw [dedupeSeen, if_neg hx]
      have hne : (x.id == k) = false := by
        simp only [beq_eq_false_iff_ne, ne_eq]
        intro hc; exact hx (hc ▸ hk)
      rw [List.countP_cons, hne]
      simp only [if_neg Bool.false_ne_true, Nat.add_zero]
      exact ih (x.id :: seen) k (List.mem_cons_of_mem _ hk)

theorem dedupeSeen_countP_le_one (l : List OptionRec) :
    ∀ (seen : List Nat) (k : Nat),
      (dedupeSeen seen l).countP (fun y => y.id == k) ≤ 1 := by
  induction l with
  | nil => intro seen k; simp [dedupeSeen]
  | cons x xs ih =>
    intro seen k
    by_cases hx : x.id ∈ seen
    · rw [dedupeSeen, if_pos hx]; exact ih seen k
    · rw [dedupeSeen, if_neg hx, List.countP_cons]
      by_cases hxk : x.id = k
      · have h0 := dedupeSeen_countP_of_seen xs (x.id :: seen) k
          (by simp [hxk])
        rw [h0]
        simp [hxk]
      · have hne : (x.id == k) = false := by
          simp only [beq_eq_false_iff_ne, ne_eq]; exact hxk
        rw [hne]
        simp only [if_neg Bool.false_ne_true, Nat.add_zero]
        exact ih (x.id :: seen) k

theorem dedupeSeen_id_complete (l : List OptionRec) :
    ∀ (seen : List Nat) (o : OptionRec), o ∈ l → o.id ∉ seen →
      ∃ y ∈ dedupeSeen seen l, y.id = o.id := by
  induction l with
  | nil => intro seen o ho _; exact absurd ho (List.not_mem_nil o)
  | cons x xs ih =>
    intro seen o ho hk
    by_cases hx : x.id ∈ seen
    · rw [dedupeSeen, if_pos hx]
      rcases List.mem_cons.mp ho with rfl | ho'
      · exact absurd hx hk
      · exact ih seen o ho' hk
    · rw [dedupeSeen, if_neg hx]
      rcases List.mem_cons.mp ho with rfl | ho'
      · exact ⟨o, List.mem_cons_self o _, rfl⟩
      · by_cases hxo : o.id = x.id
        · exact ⟨x, List.mem_cons_self x _, hxo.symm⟩
        · have h := ih (x.id :: seen) o ho'
            (by simp only [List.mem_cons]; rintro (h | h); exact hxo h; exact hk h)
          obtain ⟨y, hy, hyid⟩ := h
          exact ⟨y, List.mem_cons_of_mem _ hy, hyid⟩

theorem length_ne_zero_of_two_le {s : String} (h : s.length ≥ 2) : s ≠ "" := by
  intro hc
  rw [hc] at h
  simp at h

/-! ## Claim theorems -/

/-- Claim C1: for every sequence of edit-state operations, dismissEdit emits
no update:modelValue (commit) notification, and acceptEdit emits exactly one,
whose payload is the draft value tmpVal at the moment of the call; hence over
any run the number of emitted commits equals the number of accept calls. -/
theorem edit_commit_events (V : Type) :
    (∀ (mv : Option V) (s : EditState V), (stepEdit EditOp.dismiss mv s).2 = []) ∧
    (∀ (mv : Option V) (s : EditState V),
      (stepEdit EditOp.accept mv s).2 = [EditEvent.commit s.tmpVal]) ∧
    (∀ (ops : List (EditOp × Option V)) (s : EditState V),
      ((runEdit ops s).2).length
        = ops.countP (fun p => decide (p.1 = EditOp.accept))) := by
  refine ⟨fun _ _ => rfl, fun _ _ => rfl, ?_⟩
  intro ops
  induction ops with
  | nil => intro s; rfl
  | cons p rest ih =>
    intro s
    obtain ⟨op, mv⟩ := p
    cases op <;>
      simp [runEdit, stepEdit, List.countP_cons, ih]

/-- Claim C3 counterexample: acceptEdit only toggles isEditing, so invoked
from Display it transitions to Editing, not Display. -/
theorem accept_from_display_cex :
    mode (initEdit String) = EditMode.Display ∧
    mode ((stepEdit EditOp.accept none (initEdit String)).1) = EditMode.Editing ∧
    mode ((stepEdit EditOp.accept none (initEdit String)).1) ≠ EditMode.Display := by
  decide

/-- Claim C3 (amended): the mode is always exactly one of Display and
Editing, every begin-edit/accept/dismiss call strictly alternates it, the
initial mode is Display, and acceptEdit transitions to Display whenever it is
invoked from Editing (the only state in which the accept control is
rendered). -/
theorem edit_mode_alternation (V : Type) :
    mode (initEdit V) = EditMode.Display ∧
    (∀ s : EditState V, mode s = EditMode.Display ∨ mode s = EditMode.Editing) ∧
    (∀ (op : EditOp) (mv : Option V) (s : EditState V),
      mode (stepEdit op mv s).1 ≠ mode s) ∧
    (∀ (mv : Option V) (s : EditState V),
      mode s = EditMode.Editing →
        mode (stepEdit EditOp.accept mv s).1 = EditMode.Display) := by
  refine ⟨rfl, ?_, ?_, ?_⟩
  · intro s; cases h : s.isEditing <;> simp [mode, h]
  · intro op mv s; cases h : s.isEditing <;> cases op <;>
      simp [mode, stepEdit, toggleEdit, h]
  · intro mv s h
    cases hb : s.isEditing
    · simp [mode, hb] at h
    · simp [mode, stepEdit, toggleEdit, hb]

/-- Witness for the amended C3 theorem at a concrete editing state. -/
theorem edit_mode_alternation_witness :
    mode (⟨true, none⟩ : EditState String) = EditMode.Editing ∧
    mode ((stepEdit EditOp.accept none (⟨true, none⟩ : EditState String)).1)
      = EditMode.Display :=
  ⟨by decide, (edit_mode_alternation String).2.2.2 none ⟨true, none⟩ (by decide)⟩

/-- Claim C7 counterexample: in Input.vue the modelValue watcher is neither
immediate nor run from mounted, so on the freshly created read-only component
with a committed value the draft tmpVal is still null; begin-edit enters
Editing without the draft being set to the committed value. -/
theorem beginEdit_draft_cex :
    ((initInput true (some "a")).modelValue = some "a") ∧
    ((inputToggleEdit (initInput true (some "a"))).isEditing = true) ∧
    ((inputToggleEdit (initInput true (some "a"))).tmpVal ≠ some "a") := by
  decide

/-- Claim C7 (amended): begin-edit toggles Display to Editing, emits nothing
and issues no fetch, and leaves the draft value unchanged: the draft is not
copied from the committed value by begin-edit itself (it is maintained by the
modelValue watcher and by dismissEdit). -/
theorem beginEdit_no_side_effects (V : Type) (mv : Option V) (s : EditState V) :
    ((stepEdit EditOp.toggle mv s).2 = []) ∧
    ((stepEdit EditOp.toggle mv s).1.tmpVal = s.tmpVal) ∧
    (mode s = EditMode.Display →
      mode (stepEdit EditOp.toggle mv s).1 = EditMode.Editing) := by
  refine ⟨rfl, rfl, ?_⟩
  intro h
  cases hb : s.isEditing
  · simp [mode, stepEdit, toggleEdit, hb]
  · simp [mode, hb] at h

/-- Claim C2: in OnDemandSearch mode, when the fetch triggered by a filter
text of length at least 2 succeeds with result r while a selection sel
exists, the options become the first-occurrence-per-id de-duplication of
r ++ sel (search hits first, retained selections appended); in particular
every selected item's id, even one already present in r, occurs exactly once
in the result. -/
theorem onDemand_search_merge (s : MsState) (oldV newV : String)
    (r sel : List OptionRec) (hsel : s.modelValue = some sel)
    (hnew : newV.length ≥ 2) :
    ((filterWatch s oldV newV (FetchOutcome.ok r)).1.options
        = specDedupe (r ++ sel)) ∧
    (∀ k : Nat,
      ((filterWatch s oldV newV (FetchOutcome.ok r)).1.options.countP
        (fun y => y.id == k)) ≤ 1) ∧
    (∀ o ∈ sel,
      ((filterWatch s oldV newV (FetchOutcome.ok r)).1.options.countP
        (fun y => y.id == o.id)) = 1) := by
  have hne : newV ≠ "" := length_ne_zero_of_two_le hnew
  have h1 : ¬(oldV ≠ "" ∧ oldV.length ≥ 2 ∧ newV.length < 2) := by
    rintro ⟨_, _, hlt⟩
    omega
  have heval : (filterWatch s oldV newV (FetchOutcome.ok r)).1.options
      = jsDedupe (r ++ sel) := by
    unfold filterWatch
    rw [if_neg h1, if_pos (And.intro hne hnew), hsel]
  have heq : (filterWatch s oldV newV (FetchOutcome.ok r)).1.options
      = dedupeSeen [] (r ++ sel) :=
    heval.trans (jsDedupe_eq_specDedupe (r ++ sel))
  refine ⟨heval.trans (jsDedupe_eq_specDedupe (r ++ sel)), ?_, ?_⟩
  · intro k
    rw [heq]
    exact dedupeSeen_countP_le_one (r ++ sel) [] k
  · intro o ho
    rw [heq]
    have hle := dedupeSeen_countP_le_one (r ++ sel) [] o.id
    obtain ⟨y, hy, hyid⟩ :=
      dedupeSeen_id_complete (r ++ sel) [] o (List.mem_append_right r ho)
        (List.not_mem_nil o.id)
    have hpos : 0 < (dedupeSeen [] (r ++ sel)).countP (fun y => y.id == o.id) :=
      List.countP_pos_iff.mpr ⟨y, hy, by simp [hyid]⟩
    omega

/-- Witness for the C2 theorem on the spec's own example: selection
id 1 named A, filter text xy, fetch result with ids 2 then 1; the merged
options are exactly ids 2 then 1, with no duplicate of id 1. -/
theorem onDemand_search_merge_witness :
    ("xy".length ≥ 2) ∧
    ((filterWatch ⟨[], false, none, some [⟨1, "A"⟩]⟩ "" "xy"
        (FetchOutcome.ok [⟨2, "B"⟩, ⟨1, "A"⟩])).1.options
      = specDedupe ([⟨2, "B"⟩, ⟨1, "A"⟩] ++ [⟨1, "A"⟩])) ∧
    (specDedupe ([⟨2, "B"⟩, ⟨1, "A"⟩] ++ [⟨1, "A"⟩]) = [⟨2, "B"⟩, ⟨1, "A"⟩]) :=
  ⟨by decide,
   (onDemand_search_merge ⟨[], false, none, some [⟨1, "A"⟩]⟩ "" "xy"
      [⟨2, "B"⟩, ⟨1, "A"⟩] [⟨1, "A"⟩] rfl (by decide)).1,
   by decide⟩

/-- Claim C5: in OnDemandSearch mode, a filter transition from a text of
length at least 2 to a text of length under 2 resets the options to exactly
the selected items, issues no fetch and raises no report, whatever a fetch
would have returned. -/
theorem onDemand_reset_short_filter (s : MsState) (oldV newV : String)
    (sel : List OptionRec) (f : FetchOutcome) (hsel : s.modelValue = some sel)
    (hold : oldV.length ≥ 2) (hnew : newV.length < 2) :
    ((filterWatch s oldV newV f).1.options = sel) ∧
    ((filterWatch s oldV newV f).2.2 = []) ∧
    ((filterWatch s oldV newV f).2.1 = []) := by
  have hne : oldV ≠ "" := length_ne_zero_of_two_le hold
  unfold filterWatch
  rw [if_pos (And.intro hne (And.intro hold hnew)), hsel]
  exact ⟨rfl, rfl, rfl⟩

/-- Witness for the C5 theorem: from filter ab to x, prior search results are
discarded and the options equal the selection. -/
theorem onDemand_reset_short_filter_witness :
    ("ab".length ≥ 2) ∧ ("x".length < 2) ∧
    ((filterWatch ⟨[⟨2, "B"⟩], false, none, some [⟨1, "A"⟩]⟩ "ab" "x"
        FetchOutcome.err).1.options = [⟨1, "A"⟩]) ∧
    ((filterWatch ⟨[⟨2, "B"⟩], false, none, some [⟨1, "A"⟩]⟩ "ab" "x"
        FetchOutcome.err).2.2 = []) :=
  ⟨by decide, by decide,
   (onDemand_reset_short_filter ⟨[⟨2, "B"⟩], false, none, some [⟨1, "A"⟩]⟩
      "ab" "x" [⟨1, "A"⟩] FetchOutcome.err rfl (by decide) (by decide)).1,
   (onDemand_reset_short_filter ⟨[⟨2, "B"⟩], false, none, some [⟨1, "A"⟩]⟩
      "ab" "x" [⟨1, "A"⟩] FetchOutcome.err rfl (by decide) (by decide)).2.1⟩

/-- Witness for the amended C7 theorem at a concrete display state. -/
theorem beginEdit_no_side_effects_witness :
    ((stepEdit EditOp.toggle (some "a") (initEdit String)).2 = []) ∧
    ((stepEdit EditOp.toggle (some "a") (initEdit String)).1.tmpVal
      = (initEdit String).tmpVal) ∧
    (mode ((stepEdit EditOp.toggle (some "a") (initEdit String)).1)
      = EditMode.Editing) :=
  ⟨(beginEdit_no_side_effects String (some "a") (initEdit String)).1,
   (beginEdit_no_side_effects String (some "a") (initEdit String)).2.1,
   (beginEdit_no_side_effects String (some "a") (initEdit String)).2.2 (by decide)⟩

/-- Claim C6 counterexample: on a failing OnDemandSearch fetch the code
leaves options untouched, it does not collapse them to the de-duplication of
the selected items with an empty fetch result: with pre-failure options id 2
and selection id 1, the options stay at id 2 while the claimed merge is
id 1. -/
theorem onDemand_failure_options_cex :
    ((filterWatch ⟨[⟨2, "B"⟩], true, none, some [⟨1, "A"⟩]⟩ "ab" "cd"
        FetchOutcome.err).1.options = [⟨2, "B"⟩]) ∧
    (specDedupe ([] ++ [⟨1, "A"⟩]) = [⟨1, "A"⟩]) ∧
    (([⟨2, "B"⟩] : List OptionRec) ≠ [⟨1, "A"⟩]) := by
  decide

/-- Claim C6 (amended): when an OnDemandSearch fetch for a filter text of
length at least 2 fails, isLoading is set to false, exactly one LoadFailure
is reported, and the options list is left unchanged at its pre-failure
value (it is not re-merged with the selected items). -/
theorem onDemand_failure_state (s : MsState) (oldV newV : String)
    (hnew : newV.length ≥ 2) :
    ((filterWatch s oldV newV FetchOutcome.err).1.options = s.options) ∧
    ((filterWatch s oldV newV FetchOutcome.err).1.isLoading = false) ∧
    ((filterWatch s oldV newV FetchOutcome.err).2.1 = [Report.loadFailure]) := by
  have hne : newV ≠ "" := length_ne_zero_of_two_le hnew
  have h1 : ¬(oldV ≠ "" ∧ oldV.length ≥ 2 ∧ newV.length < 2) := by
    rintro ⟨_, _, hlt⟩
    omega
  unfold filterWatch
  rw [if_neg h1, if_pos (And.intro hne hnew)]
  exact ⟨rfl, rfl, rfl⟩

/-- Witness for the amended C6 theorem at a concrete failing search. -/
theorem onDemand_failure_state_witness :
    ("cd".length ≥ 2) ∧
    ((filterWatch ⟨[⟨2, "B"⟩], true, none, some [⟨1, "A"⟩]⟩ "ab" "cd"
        FetchOutcome.err).1.options = [⟨2, "B"⟩]) ∧
    ((filterWatch ⟨[⟨2, "B"⟩], true, none, some [⟨1, "A"⟩]⟩ "ab" "cd"
        FetchOutcome.err).1.isLoading = false) ∧
    ((filterWatch ⟨[⟨2, "B"⟩], true, none, some [⟨1, "A"⟩]⟩ "ab" "cd"
        FetchOutcome.err).2.1 = [Report.loadFailure]) :=
  ⟨by decide,
   (onDemand_failure_state ⟨[⟨2, "B"⟩], true, none, some [⟨1, "A"⟩]⟩
      "ab" "cd" (by decide)).1,
   (onDemand_failure_state ⟨[⟨2, "B"⟩], true, none, some [⟨1, "A"⟩]⟩
      "ab" "cd" (by decide)).2.1,
   (onDemand_failure_state ⟨[⟨2, "B"⟩], true, none, some [⟨1, "A"⟩]⟩
      "ab" "cd" (by decide)).2.2⟩

/-- Claim C4: in Remote mode (truthy url, no data prop, no on-demand
search), a failing mount-time fetch leaves options empty, ends with
isLoading false, reports exactly one LoadFailure, and issues exactly one
fetch (no automatic retry). -/
theorem remote_mount_failure (p : MsProps) (mv : Option (List OptionRec))
    (hdata : p.data = none) (hods : p.onDemandSearch = false)
    (hurl : strTruthy p.url = true) :
    ((mountedMs p (initMs p mv) FetchOutcome.err).1.options = []) ∧
    ((mountedMs p (initMs p mv) FetchOutcome.err).1.isLoading = false) ∧
    ((mountedMs p (initMs p mv) FetchOutcome.err).2.1 = [Report.loadFailure]) ∧
    ((mountedMs p (initMs p mv) FetchOutcome.err).2.2 = [p.url.getD ""]) := by
  cases hr : p.readOnly <;>
    simp [mountedMs, initMs, hdata, hods, hurl, hr]

/-- Witness for the C4 theorem at a concrete url-only Multiselect. -/
theorem remote_mount_failure_witness :
    ((mountedMs ⟨some "items", none, false, false⟩
        (initMs ⟨some "items", none, false, false⟩ none)
        FetchOutcome.err).1.options = []) ∧
    ((mountedMs ⟨some "items", none, false, false⟩
        (initMs ⟨some "items", none, false, false⟩ none)
        FetchOutcome.err).1.isLoading = false) ∧
    ((mountedMs ⟨some "items", none, false, false⟩
        (initMs ⟨some "items", none, false, false⟩ none)
        FetchOutcome.err).2.1 = [Report.loadFailure]) :=
  ⟨(remote_mount_failure ⟨some "items", none, false, false⟩ none rfl rfl
      (by decide)).1,
   (remote_mount_failure ⟨some "items", none, false, false⟩ none rfl rfl
      (by decide)).2.1,
   (remote_mount_failure ⟨some "items", none, false, false⟩ none rfl rfl
      (by decide)).2.2.1⟩

/-- Claim C8 counterexample: in Input.vue (and identically Textarea.vue) the
modelValue watcher is declared once, so on a read-only field the second
external update no longer refreshes the mirrored draft: after updates b then
c the committed value is c but the draft is still b. -/
theorem watch_second_update_cex :
    ((inputSetModel (inputSetModel (initInput true (some "a")) (some "b"))
        (some "c")).readOnly = true) ∧
    ((inputSetModel (inputSetModel (initInput true (some "a")) (some "b"))
        (some "c")).modelValue = some "c") ∧
    ((inputSetModel (inputSetModel (initInput true (some "a")) (some "b"))
        (some "c")).tmpVal = some "b") ∧
    ((some "b" : Option String) ≠ some "c") := by
  decide

/-- Claim C8 (amended): on a read-only field, every external committed-value
update refreshes the mirrored draft in Select.vue and Multiselect.vue, whose
watcher is persistent; in Input.vue and Textarea.vue the watcher is declared
once, so only the first update refreshes the draft and later updates leave it
unchanged. -/
theorem modelValue_watch_refresh :
    (∀ (s : SelectComp) (v : Option String), s.readOnly = true →
      (selectSetModel s v).tmpVal = v) ∧
    (∀ (s : InputComp) (v : Option String), s.readOnly = true →
      s.watcherArmed = true → (inputSetModel s v).tmpVal = v) ∧
    (∀ (s : InputComp) (v : Option String), s.watcherArmed = false →
      (inputSetModel s v).tmpVal = s.tmpVal) := by
  refine ⟨?_, ?_, ?_⟩
  · intro s v h
    simp [selectSetModel, h]
  · intro s v h1 h2
    simp [inputSetModel, h1, h2]
  · intro s v h
    simp [inputSetModel, h]

/-- Witness for the amended C8 theorem at concrete states. -/
theorem modelValue_watch_refresh_witness :
    ((selectSetModel ⟨false, none, none, true⟩ (some "x")).tmpVal = some "x") ∧
    ((inputSetModel (initInput true none) (some "y")).tmpVal = some "y") ∧
    ((inputSetModel ⟨false, some "z", none, false, true⟩ (some "w")).tmpVal
      = some "z") :=
  ⟨modelValue_watch_refresh.1 ⟨false, none, none, true⟩ (some "x") rfl,
   modelValue_watch_refresh.2.1 (initInput true none) (some "y") rfl rfl,
   modelValue_watch_refresh.2.2 ⟨false, some "z", none, false, true⟩
     (some "w") rfl⟩

/-- Claim C9: the filterValue watcher has no staleness guard, so a fetch
issued for an older filter text that resolves after the newer fetch has
already resolved overwrites the options with the stale result.  Filter ab
issues request 0, filter cd issues request 1; request 1 resolves with id 2,
then request 0 resolves with id 1, and the final options are the stale id 1
result instead of request 1's id 2 result. -/
theorem stale_fetch_overwrites :
    ((searchRun (initSearch none)
        [SearchEv.setFilter "ab", SearchEv.setFilter "cd",
         SearchEv.resolve 1 [⟨2, "B"⟩], SearchEv.resolve 0 [⟨1, "A"⟩]]).1.options
      = [⟨1, "A"⟩]) ∧
    (([⟨1, "A"⟩] : List OptionRec) ≠ [⟨2, "B"⟩]) := by
  decide

/-- Claim C10: removeAll on a read-only Multiselect only empties the draft
tmpVal and emits nothing, leaving the committed value and the rest of the
state unchanged; on an editable Multiselect it emits exactly one
update:modelValue event carrying the empty list and changes no local state,
tmpVal included. -/
theorem removeAll_modes (b : Bool) (s : MsState) :
    (b = true →
      (removeAll b s).1.tmpVal = some [] ∧
      (removeAll b s).2 = [] ∧
      (removeAll b s).1.modelValue = s.modelValue ∧
      (removeAll b s).1.options = s.options ∧
      (removeAll b s).1.isLoading = s.isLoading) ∧
    (b = false →
      (removeAll b s).2 = [MsEvent.updateModelValue []] ∧
      (removeAll b s).1 = s) := by
  cases b <;> simp [removeAll]

/-- Witness for the C10 theorem in both the read-only and the editable
configuration. -/
theorem removeAll_modes_witness :
    ((removeAll true ⟨[], false, none, some [⟨1, "A"⟩]⟩).1.tmpVal = some []) ∧
    ((removeAll true ⟨[], false, none, some [⟨1, "A"⟩]⟩).2 = []) ∧
    ((removeAll false ⟨[], false, none, some [⟨1, "A"⟩]⟩).2
      = [MsEvent.updateModelValue []]) ∧
    ((removeAll false ⟨[], false, none, some [⟨1, "A"⟩]⟩).1
      = ⟨[], false, none, some [⟨1, "A"⟩]⟩) :=
  ⟨((removeAll_modes true ⟨[], false, none, some [⟨1, "A"⟩]⟩).1 rfl).1,
   ((removeAll_modes true ⟨[], false, none, some [⟨1, "A"⟩]⟩).1 rfl).2.1,
   ((removeAll_modes false ⟨[], false, none, some [⟨1, "A"⟩]⟩).2 rfl).1,
   ((removeAll_modes false ⟨[], false, none, some [⟨1, "A"⟩]⟩).2 rfl).2⟩

end VueSpec
